import Mathlib

/-!
Shallow embedding of the `tsunami` solver interface.

The repository's source contains only the C boundary
(`src/tsunami/fort/tsunami_fort.h`): the struct `c_SimParams` and the entry
point `void c_run_solver(void *c_SimParams, double *h)`.  The numerical kernel
itself lives in an external compiled routine, so the solver behaviour below is
modelled from the specification (`spec.md`, §3–§4): an explicit FDTD scheme for
the damped 1-D wave equation, with precondition validation, a unit-impulse
initial condition, interior update, boundary handling (fixed by default,
reflective as the configurable alternative), and layer rotation.  Real-valued
quantities are modelled by `ℚ` (exact arithmetic).
-/

namespace Tsunami

/-- Mirrors `c_SimParams` from `src/tsunami/fort/tsunami_fort.h`:
`int icenter; int grid_size; int timesteps; double dt; double dx; double c;
double decay;`.  C `int` becomes `Int`, `double` becomes `ℚ`. -/
structure c_SimParams where
  icenter : Int
  grid_size : Int
  timesteps : Int
  dt : ℚ
  dx : ℚ
  c : ℚ
  decay : ℚ
  deriving Repr, DecidableEq

/-- Modelled from the spec: §7 lists `InvalidParameter` as the error raised on
precondition violation (the optional defensive `NumericalInstability` cannot
arise in exact arithmetic under the validated Courant bound). -/
inductive SolverError where
  | invalidParameter
  deriving Repr, DecidableEq

/-- Modelled from the spec: §9 leaves the boundary policy open and asks for
both as a configurable option, defaulting to fixed (Dirichlet zero);
`reflective` is the Neumann mirrored-neighbour alternative. -/
inductive Boundary where
  | fixed
  | reflective
  deriving Repr, DecidableEq

/-- Modelled from the spec: §4.1 precondition validation:
`grid_size > 2`, `dt > 0`, `dx > 0`, `c > 0`, `0 <= icenter < grid_size`,
and the Courant condition `c*dt/dx <= 1`. -/
def validParams (p : c_SimParams) : Prop :=
  0 < p.dt ∧ 0 < p.dx ∧ 0 < p.c ∧ 2 < p.grid_size ∧
    0 ≤ p.icenter ∧ p.icenter < p.grid_size ∧ p.c * p.dt / p.dx ≤ 1

instance (p : c_SimParams) : Decidable (validParams p) := by
  unfold validParams; infer_instance

/-- The squared Courant number `(c*dt/dx)^2`, the coefficient of the
discrete Laplacian in the spec's §4.1 update formula. -/
def courant2 (p : c_SimParams) : ℚ :=
  (p.c * p.dt / p.dx) ^ 2

/-- Reading a buffer entry: index `i` of a height buffer, `0` out of range
(in-range indices are the only ones the development ever uses). -/
def entry (l : List ℚ) (i : ℕ) : ℚ :=
  l.getD i 0

/-- Right neighbour index under the reflective (mirrored-neighbour) boundary:
`i+1` in the interior, mirrored to `n-2` at the right edge. -/
def reflRight (n i : ℕ) : ℕ :=
  if i = n - 1 then n - 2 else i + 1

/-- Left neighbour index under the reflective (mirrored-neighbour) boundary:
`i-1` in the interior, mirrored to `1` at the left edge. -/
def reflLeft (i : ℕ) : ℕ :=
  if i = 0 then 1 else i - 1

/-- The discrete Laplacian term `r2 * (u[right] - 2*u[i] + u[left])` with
mirrored-neighbour indices, acting on a field given as a function. -/
def lapf (n : ℕ) (r2 : ℚ) (u : ℕ → ℚ) (i : ℕ) : ℚ :=
  r2 * (u (reflRight n i) - 2 * u i + u (reflLeft i))

/-- Modelled from the spec: §4.1 step 1–2, the value of the next time layer at
index `i`.  Interior points follow
`next[i] = 2*curr[i] - prev[i] + r2*(curr[i+1] - 2*curr[i] + curr[i-1])`
followed by damping `next[i] *= (1 - decay)`; the two edge points follow the
chosen boundary policy (fixed: held at zero; reflective: same update with the
missing neighbour mirrored). -/
def nextVal (bc : Boundary) (n : ℕ) (r2 d : ℚ) (prev curr : List ℚ) (i : ℕ) : ℚ :=
  match bc with
  | .fixed =>
      if i = 0 ∨ i = n - 1 then 0
      else
        (1 - d) *
          (2 * entry curr i - entry prev i +
            r2 * (entry curr (i + 1) - 2 * entry curr i + entry curr (i - 1)))
  | .reflective =>
      (1 - d) *
        (2 * entry curr i - entry prev i + lapf n r2 (fun j => entry curr j) i)

/-- Modelled from the spec: one full time step: the next layer of length `n`
computed point by point from the previous and current layers. -/
def stepField (bc : Boundary) (n : ℕ) (r2 d : ℚ) (prev curr : List ℚ) : List ℚ :=
  (List.range n).map (nextVal bc n r2 d prev curr)

/-- Modelled from the spec: §4.1 initialization: a unit-amplitude seed at
`icenter`, every other point at rest. -/
def initField (n ic : ℕ) : List ℚ :=
  (List.range n).map (fun i => if i = ic then 1 else 0)

/-- Modelled from the spec: the `(prev, curr)` pair of time layers after `t`
steps.  At `t = 0` both equal the seeded initial condition (zero initial
velocity); each step computes `next` and rotates `prev ← curr`,
`curr ← next`. -/
def statePair (bc : Boundary) (p : c_SimParams) : ℕ → List ℚ × List ℚ
  | 0 => (initField p.grid_size.toNat p.icenter.toNat,
          initField p.grid_size.toNat p.icenter.toNat)
  | t + 1 =>
      let s := statePair bc p t
      (s.2, stepField bc p.grid_size.toNat (courant2 p) p.decay s.1 s.2)

/-- Modelled from the spec: §4.1 termination: the current layer after
`timesteps` steps is the solver's output field. -/
def solve (bc : Boundary) (p : c_SimParams) : List ℚ :=
  (statePair bc p p.timesteps.toNat).2

/-- Modelled from the spec: the solver contract: validate the preconditions,
fail with `InvalidParameter` before any stepping when they are violated,
otherwise run the steps (with the default fixed boundary policy) and return
the final height field. -/
def run_solver (p : c_SimParams) : Except SolverError (List ℚ) :=
  if validParams p then .ok (solve .fixed p) else .error .invalidParameter

/-- Mirrors `void c_run_solver(void *c_SimParams, double *h)`: the C entry
point returns no value (`Unit`) and its only effect is the final contents of
the caller's buffer `h`; on a precondition failure the buffer is left
untouched. -/
def c_run_solver (p : c_SimParams) (h : List ℚ) : Unit × List ℚ :=
  ((), match run_solver p with
       | .ok out => out
       | .error _ => h)

/-- The maximum absolute height of a buffer (`0` for the empty buffer). -/
def maxAbs (l : List ℚ) : ℚ :=
  (l.map (fun x => |x|)).foldr max 0

/-- The example parameter set of spec §8: `grid_size=5, icenter=2, timesteps=1,
dt=0.1, dx=1.0, c=1.0, decay=0`. -/
def exampleParams : c_SimParams :=
  ⟨2, 5, 1, 1/10, 1, 1, 0⟩

theorem length_stepField (bc : Boundary) (n : ℕ) (r2 d : ℚ) (prev curr : List ℚ) :
    (stepField bc n r2 d prev curr).length = n := by
  simp [stepField]

theorem length_initField (n ic : ℕ) : (initField n ic).length = n := by
  simp [initField]

theorem entry_map_range (f : ℕ → ℚ) (n i : ℕ) (hi : i < n) :
    entry ((List.range n).map f) i = f i := by
  unfold entry
  rw [List.getD_eq_getElem _ _ (by simpa using hi)]
  simp

theorem entry_stepField (bc : Boundary) (n : ℕ) (r2 d : ℚ) (prev curr : List ℚ)
    (i : ℕ) (hi : i < n) :
    entry (stepField bc n r2 d prev curr) i = nextVal bc n r2 d prev curr i :=
  entry_map_range _ n i hi

theorem entry_initField (n ic i : ℕ) (hi : i < n) :
    entry (initField n ic) i = if i = ic then 1 else 0 :=
  entry_map_range _ n i hi

theorem toNat_grid_ge (p : c_SimParams) (hv : validParams p) :
    3 ≤ p.grid_size.toNat := by
  rcases hv with ⟨-, -, -, hg, -⟩
  omega

/-- C9: for `grid_size=5, icenter=2, timesteps=1, dt=0.1, dx=1.0, c=1.0,
decay=0` with seed `[0,0,1,0,0]`, the parameters are valid, one step produces
the buffer `[0, 1/100, 49/50, 1/100, 0]`, the value at index 2 equals
`2 - 2*(0.1)^2 - 1 = 1 - 0.02`, and the values at indices 1 and 3 agree. -/
theorem C9_example_step :
    validParams exampleParams ∧
    run_solver exampleParams = .ok [0, 1/100, 49/50, 1/100, 0] ∧
    entry (solve .fixed exampleParams) 2 = 2 - 2 * (1/10)^2 - 1 ∧
    entry (solve .fixed exampleParams) 1 = entry (solve .fixed exampleParams) 3 := by
  have hv : validParams exampleParams := by
    unfold validParams exampleParams
    norm_num
  have hsolve : solve .fixed exampleParams = [0, 1/100, 49/50, 1/100, 0] := by
    norm_num [solve, exampleParams, statePair, stepField, nextVal, initField, entry,
      courant2, show List.range 5 = [0,1,2,3,4] from rfl,
      show (5:Int).toNat = 5 from rfl, show (2:Int).toNat = 2 from rfl,
      show (1:Int).toNat = 1 from rfl, List.getD]
  refine ⟨hv, ?_, ?_, ?_⟩
  · rw [run_solver, if_pos hv, hsolve]
  · rw [hsolve]; norm_num [entry, List.getD]
  · rw [hsolve]; norm_num [entry, List.getD]

/-- C2: when any §4.1 precondition is violated (non-positive `dt`, `dx` or
`c`, `grid_size ≤ 2`, `icenter` out of range, or Courant number above 1), the
solver fails with `InvalidParameter` before any stepping, returns no computed
result, and the caller's buffer is left untouched. -/
theorem C2_invalid_parameter (p : c_SimParams) (h : List ℚ)
    (hbad : p.dt ≤ 0 ∨ p.dx ≤ 0 ∨ p.c ≤ 0 ∨ p.grid_size ≤ 2 ∨
      p.icenter < 0 ∨ p.grid_size ≤ p.icenter ∨ 1 < p.c * p.dt / p.dx) :
    run_solver p = .error .invalidParameter ∧ (c_run_solver p h).2 = h := by
  have hnv : ¬ validParams p := by
    rintro ⟨h1, h2, h3, h4, h5, h6, h7⟩
    rcases hbad with hb | hb | hb | hb | hb | hb | hb <;> linarith
  refine ⟨?_, ?_⟩
  · rw [run_solver, if_neg hnv]
  · simp [c_run_solver, run_solver, if_neg hnv]

/-- C2 witness: the concrete parameter set with `c = 2`, `dt = dx = 1`
violates the Courant bound and is rejected with the buffer untouched. -/
theorem C2_invalid_parameter_witness :
    run_solver ⟨0, 5, 1, 1, 1, 2, 0⟩ = .error .invalidParameter ∧
    (c_run_solver ⟨0, 5, 1, 1, 1, 2, 0⟩ [7, 7]).2 = [7, 7] :=
  C2_invalid_parameter ⟨0, 5, 1, 1, 1, 2, 0⟩ [7, 7] (by norm_num)

/-- C3: for a valid parameter set with `timesteps = 0` the output buffer is
the initial condition exactly: length `grid_size`, a unit seed at `icenter`
and zero at every other grid point. -/
theorem C3_zero_timesteps (p : c_SimParams) (h : List ℚ)
    (hv : validParams p) (h0 : p.timesteps = 0) :
    (c_run_solver p h).2.length = p.grid_size.toNat ∧
    ∀ i : ℕ, i < p.grid_size.toNat →
      entry (c_run_solver p h).2 i = (if (i : Int) = p.icenter then (1:ℚ) else 0) := by
  have hout : (c_run_solver p h).2 = initField p.grid_size.toNat p.icenter.toNat := by
    simp [c_run_solver, run_solver, if_pos hv, solve, h0, statePair]
  rcases hv with ⟨-, -, -, -, hic0, -, -⟩
  refine ⟨by rw [hout, length_initField], ?_⟩
  intro i hi
  rw [hout, entry_initField _ _ _ hi]
  have : (i = p.icenter.toNat) ↔ ((i : Int) = p.icenter) := by omega
  split <;> split <;> simp_all

/-- C3 witness: with `timesteps = 0` on a valid 5-point grid centred at 2 the
output has length 5, holds `1` at the centre and `0` at index 0. -/
theorem C3_zero_timesteps_witness :
    (c_run_solver ⟨2, 5, 0, 1/10, 1, 1, 0⟩ []).2.length = (5:Int).toNat ∧
    entry (c_run_solver ⟨2, 5, 0, 1/10, 1, 1, 0⟩ []).2 2
      = (if ((2:ℕ) : Int) = (2:Int) then (1:ℚ) else 0) ∧
    entry (c_run_solver ⟨2, 5, 0, 1/10, 1, 1, 0⟩ []).2 0
      = (if ((0:ℕ) : Int) = (2:Int) then (1:ℚ) else 0) := by
  have hv : validParams ⟨2, 5, 0, 1/10, 1, 1, 0⟩ := by
    unfold validParams; norm_num
  have h := C3_zero_timesteps ⟨2, 5, 0, 1/10, 1, 1, 0⟩ [] hv rfl
  exact ⟨h.1, h.2 2 (by norm_num), h.2 0 (by norm_num)⟩

/-- C6: the computation is deterministic: two invocations with identical
parameters (and identical incoming buffers) produce identical results —
the same output field or the same failure. -/
theorem C6_deterministic (p q : c_SimParams) (hpq : p = q)
    (h h' : List ℚ) (hb : h = h') :
    run_solver p = run_solver q ∧ c_run_solver p h = c_run_solver q h' := by
  subst hpq; subst hb; exact ⟨rfl, rfl⟩

/-- C6 witness: determinism at the spec §8 example parameters. -/
theorem C6_deterministic_witness :
    run_solver exampleParams = run_solver exampleParams ∧
    c_run_solver exampleParams [] = c_run_solver exampleParams [] :=
  C6_deterministic exampleParams exampleParams rfl [] [] rfl

/-- C7: a valid invocation writes only the caller-provided buffer: the final
buffer contents are a function of the parameters alone (independent of
whatever the buffer held before, and of any other call), the `void` return
carries nothing, and the model has no state besides the parameters and the
buffer, so nothing persists across calls. -/
theorem C7_frame (p : c_SimParams) (h h' : List ℚ) (hv : validParams p) :
    (c_run_solver p h).2 = solve .fixed p ∧
    (c_run_solver p h).2 = (c_run_solver p h').2 ∧
    (c_run_solver p h).1 = () := by
  have hout : ∀ b : List ℚ, (c_run_solver p b).2 = solve .fixed p := by
    intro b
    simp [c_run_solver, run_solver, if_pos hv]
  exact ⟨hout h, by rw [hout h, hout h'], rfl⟩

/-- C7 witness: at the spec §8 example parameters the output is independent
of the incoming buffer contents. -/
theorem C7_frame_witness :
    (c_run_solver exampleParams [3, 4]).2 = solve .fixed exampleParams ∧
    (c_run_solver exampleParams [3, 4]).2 = (c_run_solver exampleParams []).2 ∧
    (c_run_solver exampleParams [3, 4]).1 = () :=
  C7_frame exampleParams [3, 4] [] (by unfold validParams exampleParams; norm_num)

/-- C10: the entry point returns `void` and takes only the parameter struct
and the output buffer, so its return value is the same for every invocation
and can carry no error signal: any `InvalidParameter` outcome is observable
only through the buffer component of the call's result. -/
theorem C10_void_return :
    ∀ (p₁ p₂ : c_SimParams) (h₁ h₂ : List ℚ),
      (c_run_solver p₁ h₁).1 = (c_run_solver p₂ h₂).1 ∧
      c_run_solver p₁ h₁ = ((), (c_run_solver p₁ h₁).2) := by
  intro p₁ p₂ h₁ h₂
  exact ⟨rfl, rfl⟩

/-- C1: for a valid parameter set, every step advances each interior point by
`next[i] = 2*curr[i] - prev[i] + (c*dt/dx)^2 * (curr[i+1] - 2*curr[i] +
curr[i-1])` followed by damping `next[i] *= (1 - decay)` (under either
boundary policy), the layers rotate `prev ← curr`, `curr ← next`, and the
solver's result is the current layer after `timesteps` repetitions. -/
theorem C1_interior_update (p : c_SimParams) (hv : validParams p)
    (bc : Boundary) (t i : ℕ) (h1 : 1 ≤ i) (h2 : i ≤ p.grid_size.toNat - 2) :
    entry (statePair bc p (t+1)).2 i =
      (2 * entry (statePair bc p t).2 i - entry (statePair bc p t).1 i +
        courant2 p * (entry (statePair bc p t).2 (i+1) -
          2 * entry (statePair bc p t).2 i +
          entry (statePair bc p t).2 (i-1))) * (1 - p.decay) ∧
    (statePair bc p (t+1)).1 = (statePair bc p t).2 ∧
    run_solver p = .ok (statePair .fixed p p.timesteps.toNat).2 := by
  have hn : 3 ≤ p.grid_size.toNat := toNat_grid_ge p hv
  have hs : statePair bc p (t+1) =
      ((statePair bc p t).2,
        stepField bc p.grid_size.toNat (courant2 p) p.decay
          (statePair bc p t).1 (statePair bc p t).2) := rfl
  refine ⟨?_, by rw [hs], by rw [run_solver, if_pos hv]; rfl⟩
  rw [hs]
  rw [entry_stepField _ _ _ _ _ _ i (by omega)]
  cases bc
  case fixed =>
    unfold nextVal
    rw [if_neg (by omega)]
    ring
  case reflective =>
    simp only [nextVal, lapf, reflRight, reflLeft]
    rw [if_neg (by omega), if_neg (by omega)]
    ring

/-- C1 witness: the interior update equation, the layer rotation and the
final-output equation at the spec §8 example parameters, step 0, index 1. -/
theorem C1_interior_update_witness :
    entry (statePair .fixed exampleParams 1).2 1 =
      (2 * entry (statePair .fixed exampleParams 0).2 1 -
        entry (statePair .fixed exampleParams 0).1 1 +
        courant2 exampleParams * (entry (statePair .fixed exampleParams 0).2 2 -
          2 * entry (statePair .fixed exampleParams 0).2 1 +
          entry (statePair .fixed exampleParams 0).2 0)) *
        (1 - exampleParams.decay) ∧
    (statePair .fixed exampleParams 1).1 = (statePair .fixed exampleParams 0).2 ∧
    run_solver exampleParams =
      .ok (statePair .fixed exampleParams exampleParams.timesteps.toNat).2 :=
  C1_interior_update exampleParams
    (by unfold validParams exampleParams; norm_num) .fixed 0 1
    (by norm_num) (by decide)

theorem abs_entry_le_maxAbs (l : List ℚ) (i : ℕ) (hi : i < l.length) :
    |entry l i| ≤ maxAbs l := by
  induction l generalizing i with
  | nil => simp at hi
  | cons x xs ih =>
      have hsplit : maxAbs (x :: xs) = max |x| (maxAbs xs) := rfl
      cases i with
      | zero =>
          have : entry (x :: xs) 0 = x := rfl
          rw [this, hsplit]
          exact le_max_left _ _
      | succ j =>
          have : entry (x :: xs) (j+1) = entry xs j := rfl
          rw [this, hsplit]
          exact le_trans (ih j (by simpa using hi)) (le_max_right _ _)

theorem maxAbs_le_bound (l : List ℚ) (b : ℚ) (hb : 0 ≤ b)
    (h : ∀ i, i < l.length → |entry l i| ≤ b) : maxAbs l ≤ b := by
  induction l with
  | nil => simpa [maxAbs] using hb
  | cons x xs ih =>
      have hsplit : maxAbs (x :: xs) = max |x| (maxAbs xs) := rfl
      rw [hsplit]
      refine max_le ?_ (ih fun i hi => ?_)
      · have : entry (x :: xs) 0 = x := rfl
        simpa [this] using h 0 (by simp)
      · have : entry (x :: xs) (i+1) = entry xs i := rfl
        simpa [this] using h (i+1) (by simpa using Nat.succ_lt_succ hi)

/-- The damped §8-style parameter set used to refute C4 as stated:
`grid_size=5, icenter=2, timesteps=4, dt=dx=c=1, decay=0.1`. -/
def dampedParams : c_SimParams :=
  ⟨2, 5, 4, 1, 1, 1, 1/10⟩

/-- C4 counterexample: with the valid parameter set `grid_size=5, icenter=2,
timesteps=4, dt=dx=c=1, decay=0.1` (damping strictly positive), the maximum
absolute height strictly increases from step 3 to step 4 (`81/125` to
`2349/2500`), refuting step-over-step monotonic damping as stated. -/
theorem C4_counterexample :
    validParams dampedParams ∧ 0 < dampedParams.decay ∧
    (3 : ℕ) + 1 ≤ dampedParams.timesteps.toNat ∧
    maxAbs (statePair .fixed dampedParams 3).2 <
      maxAbs (statePair .fixed dampedParams 4).2 := by
  have h3 : maxAbs (statePair .fixed dampedParams 3).2 = 81/125 := by
    norm_num [maxAbs, dampedParams, statePair, stepField, nextVal, initField, entry,
      courant2, show List.range 5 = [0,1,2,3,4] from rfl,
      show (5:Int).toNat = 5 from rfl, show (2:Int).toNat = 2 from rfl,
      List.getD, abs, max_def]
  have h4 : maxAbs (statePair .fixed dampedParams 4).2 = 2349/2500 := by
    norm_num [maxAbs, dampedParams, statePair, stepField, nextVal, initField, entry,
      courant2, show List.range 5 = [0,1,2,3,4] from rfl,
      show (5:Int).toNat = 5 from rfl, show (2:Int).toNat = 2 from rfl,
      List.getD, abs, max_def]
  refine ⟨by unfold validParams dampedParams; norm_num, by norm_num [dampedParams],
    by decide, ?_⟩
  rw [h3, h4]; norm_num

/-- C4 amended: for a valid parameter set with `0 < decay ≤ 1` and the default
fixed boundary policy, the maximum absolute height does not increase over the
first step away from the seeded initial condition (step-over-step
monotonicity fails at later steps, see the counterexample). -/
theorem C4_amended_first_step (p : c_SimParams) (hv : validParams p)
    (hd0 : 0 < p.decay) (hd1 : p.decay ≤ 1) :
    maxAbs (statePair .fixed p 1).2 ≤ maxAbs (statePair .fixed p 0).2 := by
  obtain ⟨hdt, hdx, hc, hg, hic0, hic1, hcfl⟩ := hv
  have hn : 3 ≤ p.grid_size.toNat := by omega
  set n := p.grid_size.toNat with hndef
  set ic := p.icenter.toNat with hicdef
  have hicn : ic < n := by omega
  have hr0 : (0:ℚ) ≤ courant2 p := sq_nonneg _
  have hr1 : courant2 p ≤ 1 := by
    have hpos : 0 < p.c * p.dt / p.dx := by positivity
    unfold courant2
    nlinarith [mul_nonneg (sub_nonneg.mpr hcfl) (le_of_lt hpos)]
  have hub : maxAbs (statePair .fixed p 1).2 ≤ 1 := by
    apply maxAbs_le_bound _ _ (by norm_num)
    intro i hi
    have hs1 : (statePair .fixed p 1).2 =
        stepField .fixed n (courant2 p) p.decay (initField n ic) (initField n ic) := rfl
    rw [hs1, length_stepField] at hi
    rw [hs1, entry_stepField _ _ _ _ _ _ i hi]
    unfold nextVal
    by_cases hbd : i = 0 ∨ i = n - 1
    · rw [if_pos hbd]; norm_num
    · rw [if_neg hbd]
      have hiL : 1 ≤ i := by omega
      have hiU : i ≤ n - 2 := by omega
      rw [entry_initField n ic i hi, entry_initField n ic (i+1) (by omega),
        entry_initField n ic (i-1) (by omega)]
      have habs : ∀ E : ℚ, |E| ≤ 1 → |(1 - p.decay) * E| ≤ 1 := by
        intro E hE
        rw [abs_mul, abs_of_nonneg (by linarith : (0:ℚ) ≤ 1 - p.decay)]
        nlinarith [abs_nonneg E]
      split_ifs <;>
        first
          | (exfalso; omega)
          | (refine habs _ ?_; rw [abs_le]; constructor <;> linarith)
  have hlb : (1:ℚ) ≤ maxAbs (statePair .fixed p 0).2 := by
    have h0 : (statePair .fixed p 0).2 = initField n ic := rfl
    have he : entry (initField n ic) ic = 1 := by
      rw [entry_initField n ic ic hicn]; simp
    have := abs_entry_le_maxAbs (initField n ic) ic (by rw [length_initField]; exact hicn)
    rw [he] at this
    rw [h0]
    simpa using this
  linarith

/-- C4 amended witness: first-step monotonicity at the damped parameter
set. -/
theorem C4_amended_first_step_witness :
    maxAbs (statePair .fixed dampedParams 1).2 ≤
      maxAbs (statePair .fixed dampedParams 0).2 :=
  C4_amended_first_step dampedParams
    (by unfold validParams dampedParams; norm_num)
    (by norm_num [dampedParams]) (by norm_num [dampedParams])

/-- A buffer is symmetric about the midpoint of an `n`-point grid when entry
`j` equals entry `n-1-j` for every in-range `j`. -/
def SymField (n : ℕ) (l : List ℚ) : Prop :=
  ∀ j, j < n → entry l j = entry l (n - 1 - j)

theorem symField_initField (m : ℕ) :
    SymField (2*m+1) (initField (2*m+1) m) := by
  intro j hj
  rw [entry_initField _ _ _ hj, entry_initField _ _ _ (by omega)]
  by_cases hjm : j = m
  · rw [if_pos hjm, if_pos (by omega)]
  · rw [if_neg hjm, if_neg (by omega)]

theorem reflRight_mirror (n j : ℕ) (hn : 3 ≤ n) (hj : j < n) :
    reflRight n (n - 1 - j) = n - 1 - reflLeft j := by
  simp only [reflRight, reflLeft]
  split_ifs <;> omega

theorem reflLeft_mirror (n j : ℕ) (hn : 3 ≤ n) (hj : j < n) :
    reflLeft (n - 1 - j) = n - 1 - reflRight n j := by
  simp only [reflRight, reflLeft]
  split_ifs <;> omega

theorem reflRight_lt (n j : ℕ) (hn : 3 ≤ n) (hj : j < n) : reflRight n j < n := by
  simp only [reflRight]; split <;> omega

theorem reflLeft_lt (n j : ℕ) (hn : 3 ≤ n) (hj : j < n) : reflLeft j < n := by
  simp only [reflLeft]; split <;> omega

theorem symField_step (bc : Boundary) (n : ℕ) (hn : 3 ≤ n) (r2 d : ℚ)
    (prev curr : List ℚ) (hp : SymField n prev) (hc : SymField n curr) :
    SymField n (stepField bc n r2 d prev curr) := by
  intro j hj
  rw [entry_stepField _ _ _ _ _ _ j hj, entry_stepField _ _ _ _ _ _ _ (by omega : n - 1 - j < n)]
  cases bc
  case fixed =>
    unfold nextVal
    by_cases hb : j = 0 ∨ j = n - 1
    · rw [if_pos hb, if_pos (by omega)]
    · rw [if_neg hb, if_neg (by omega)]
      have hjL : 1 ≤ j := by omega
      have hjU : j ≤ n - 2 := by omega
      have e1 : n - 1 - j + 1 = n - 1 - (j - 1) := by omega
      have e2 : n - 1 - j - 1 = n - 1 - (j + 1) := by omega
      rw [e1, e2, ← hc j hj, ← hp j hj, ← hc (j-1) (by omega), ← hc (j+1) (by omega)]
      ring
  case reflective =>
    simp only [nextVal, lapf]
    rw [reflRight_mirror n j hn hj, reflLeft_mirror n j hn hj,
      ← hc j hj, ← hp j hj,
      ← hc (reflLeft j) (reflLeft_lt n j hn hj),
      ← hc (reflRight n j) (reflRight_lt n j hn hj)]
    ring

theorem symField_statePair (bc : Boundary) (p : c_SimParams) (m : ℕ) (hm : 1 ≤ m)
    (hg : p.grid_size = 2 * (m : Int) + 1) (hc : p.icenter = (m : Int)) (t : ℕ) :
    SymField (2*m+1) (statePair bc p t).1 ∧ SymField (2*m+1) (statePair bc p t).2 := by
  have hgn : p.grid_size.toNat = 2*m+1 := by omega
  have hcn : p.icenter.toNat = m := by omega
  induction t with
  | zero =>
      have h0 : statePair bc p 0 =
          (initField (2*m+1) m, initField (2*m+1) m) := by
        show (initField p.grid_size.toNat p.icenter.toNat,
              initField p.grid_size.toNat p.icenter.toNat) = _
        rw [hgn, hcn]
      rw [h0]
      exact ⟨symField_initField m, symField_initField m⟩
  | succ t ih =>
      have hs : statePair bc p (t+1) =
          ((statePair bc p t).2,
            stepField bc p.grid_size.toNat (courant2 p) p.decay
              (statePair bc p t).1 (statePair bc p t).2) := rfl
      rw [hs, hgn]
      exact ⟨ih.2, symField_step bc (2*m+1) (by omega) _ _ _ _ ih.1 ih.2⟩

/-- C5: with `icenter` at the exact midpoint of an odd grid
(`grid_size = 2m+1`, `icenter = m`), under either (symmetric) boundary
policy, the current layer after any number of steps is symmetric about the
midpoint: the heights at `m - k` and `m + k` agree for every offset
`k ≤ m`. -/
theorem C5_symmetric_output (p : c_SimParams) (m : ℕ) (hv : validParams p)
    (hg : p.grid_size = 2 * (m : Int) + 1) (hc : p.icenter = (m : Int))
    (bc : Boundary) (t k : ℕ) (hk : k ≤ m) :
    entry (statePair bc p t).2 (m - k) = entry (statePair bc p t).2 (m + k) := by
  have hm : 1 ≤ m := by
    rcases hv with ⟨-, -, -, hgz, -⟩
    omega
  have hsym := (symField_statePair bc p m hm hg hc t).2
  have := hsym (m - k) (by omega)
  have hidx : 2*m+1 - 1 - (m - k) = m + k := by omega
  rw [hidx] at this
  exact this

/-- C5 witness: symmetry after one step at the spec §8 example parameters
(`grid_size = 5 = 2*2+1`, `icenter = 2`), offset 1, fixed boundary. -/
theorem C5_symmetric_output_witness :
    entry (statePair .fixed exampleParams 1).2 (2 - 1) =
      entry (statePair .fixed exampleParams 1).2 (2 + 1) :=
  C5_symmetric_output exampleParams 2
    (by unfold validParams exampleParams; norm_num)
    (by norm_num [exampleParams]) (by norm_num [exampleParams])
    .fixed 1 1 (by norm_num)

/-- Boundary weight of the trapezoidal inner product on the reflective grid:
half weight at the two edge points, full weight at interior points. -/
def wgt (n i : ℕ) : ℚ :=
  if i = 0 ∨ i = n - 1 then 1/2 else 1

/-- The weighted bilinear form `∑ i, wgt n i * (L u) i * v i` built from the
reflective discrete Laplacian `lapf`. -/
def Bform (n : ℕ) (r2 : ℚ) (u v : ℕ → ℚ) : ℚ :=
  ∑ i ∈ Finset.range n, wgt n i * lapf n r2 u i * v i

/-- Modelled from the spec: §8's "total discrete energy" (the spec does not
fix the functional; this is the standard discrete energy of the leapfrog
scheme on the reflective grid): the weighted squared time difference of two
consecutive layers minus the weighted potential cross term. -/
def energy (n : ℕ) (r2 : ℚ) (v u : ℕ → ℚ) : ℚ :=
  (∑ i ∈ Finset.range n, wgt n i * (v i - u i)^2) - Bform n r2 v u

theorem sumA (m : ℕ) (f g : ℕ → ℚ) :
    (∑ i ∈ Finset.range (m+3), wgt (m+3) i * (f (reflRight (m+3) i) * g i))
      = (∑ i ∈ Finset.range m, f (i+2) * g (i+1))
        + (1/2 * (f 1 * g 0) + f (m+2) * g (m+1) + 1/2 * (f (m+1) * g (m+2))) := by
  have e1 : reflRight (m+3) (m+2) = m+1 := by simp only [reflRight]; split <;> omega
  have e2 : reflRight (m+3) (m+1) = m+2 := by simp only [reflRight]; split <;> omega
  have e3 : reflRight (m+3) 0 = 1 := by simp only [reflRight]; split <;> omega
  have w1 : wgt (m+3) (m+2) = 1/2 := by unfold wgt; rw [if_pos (Or.inr (by omega))]
  have w2 : wgt (m+3) (m+1) = 1 := by unfold wgt; rw [if_neg (by omega)]
  have w3 : wgt (m+3) 0 = 1/2 := by unfold wgt; rw [if_pos (Or.inl rfl)]
  have emid : (∑ i ∈ Finset.range m, wgt (m+3) (i+1) * (f (reflRight (m+3) (i+1)) * g (i+1)))
      = ∑ i ∈ Finset.range m, f (i+2) * g (i+1) := by
    refine Finset.sum_congr rfl ?_
    intro i hi
    rw [Finset.mem_range] at hi
    have e : reflRight (m+3) (i+1) = i+2 := by simp only [reflRight]; split <;> omega
    have w : wgt (m+3) (i+1) = 1 := by unfold wgt; rw [if_neg (by omega)]
    rw [e, w, one_mul]
  rw [Finset.sum_range_succ, Finset.sum_range_succ, Finset.sum_range_succ']
  rw [e1, e2, e3, w1, w2, w3, emid]
  ring

theorem sumL (m : ℕ) (f g : ℕ → ℚ) :
    (∑ i ∈ Finset.range (m+3), wgt (m+3) i * (f (reflLeft i) * g i))
      = (∑ i ∈ Finset.range m, f (i+1) * g (i+2))
        + (1/2 * (f 1 * g 0) + f 0 * g 1 + 1/2 * (f (m+1) * g (m+2))) := by
  have e1 : reflLeft 0 = 1 := rfl
  have e2 : reflLeft 1 = 0 := rfl
  have e3 : reflLeft (m+2) = m+1 := rfl
  have w1 : wgt (m+3) 0 = 1/2 := by unfold wgt; rw [if_pos (Or.inl rfl)]
  have w2 : wgt (m+3) 1 = 1 := by unfold wgt; rw [if_neg (by omega)]
  have w3 : wgt (m+3) (m+2) = 1/2 := by unfold wgt; rw [if_pos (Or.inr (by omega))]
  have emid : (∑ i ∈ Finset.range m, wgt (m+3) (i+2) * (f (reflLeft (i+2)) * g (i+2)))
      = ∑ i ∈ Finset.range m, f (i+1) * g (i+2) := by
    refine Finset.sum_congr rfl ?_
    intro i hi
    rw [Finset.mem_range] at hi
    have e : reflLeft (i+2) = i+1 := rfl
    have w : wgt (m+3) (i+2) = 1 := by unfold wgt; rw [if_neg (by omega)]
    rw [e, w, one_mul]
  rw [Finset.sum_range_succ', Finset.sum_range_succ, Finset.sum_range_succ']
  rw [e1, e2, e3, w1, w2, w3, emid]
  ring

theorem Bform_closed (m : ℕ) (r2 : ℚ) (f g : ℕ → ℚ) :
    Bform (m+3) r2 f g =
      r2 * ((((∑ i ∈ Finset.range m, f (i+2) * g (i+1))
            + ∑ i ∈ Finset.range m, f (i+1) * g (i+2))
          + (f 1 * g 0 + f 0 * g 1 + f (m+2) * g (m+1) + f (m+1) * g (m+2)))
        - 2 * ∑ i ∈ Finset.range (m+3), wgt (m+3) i * (f i * g i)) := by
  have hterm : ∀ i ∈ Finset.range (m+3),
      wgt (m+3) i * lapf (m+3) r2 f i * g i =
        r2 * (wgt (m+3) i * (f (reflRight (m+3) i) * g i))
          + r2 * (wgt (m+3) i * (f (reflLeft i) * g i))
          - 2 * r2 * (wgt (m+3) i * (f i * g i)) := by
    intro i hi
    simp only [lapf]
    ring
  unfold Bform
  rw [Finset.sum_congr rfl hterm, Finset.sum_sub_distrib, Finset.sum_add_distrib,
    ← Finset.mul_sum, ← Finset.mul_sum, ← Finset.mul_sum, sumA, sumL]
  ring

theorem Bform_symm (m : ℕ) (r2 : ℚ) (u v : ℕ → ℚ) :
    Bform (m+3) r2 u v = Bform (m+3) r2 v u := by
  rw [Bform_closed, Bform_closed]
  have h1 : (∑ i ∈ Finset.range m, u (i+2) * v (i+1))
      = ∑ i ∈ Finset.range m, v (i+1) * u (i+2) :=
    Finset.sum_congr rfl (fun i _ => mul_comm _ _)
  have h2 : (∑ i ∈ Finset.range m, u (i+1) * v (i+2))
      = ∑ i ∈ Finset.range m, v (i+2) * u (i+1) :=
    Finset.sum_congr rfl (fun i _ => mul_comm _ _)
  have h3 : (∑ i ∈ Finset.range (m+3), wgt (m+3) i * (u i * v i))
      = ∑ i ∈ Finset.range (m+3), wgt (m+3) i * (v i * u i) :=
    Finset.sum_congr rfl (fun i _ => by ring)
  rw [h1, h2, h3]
  ring

theorem energy_step (m : ℕ) (r2 : ℚ) (v0 v1 v2 : ℕ → ℚ)
    (h : ∀ i, i < m+3 → v2 i = 2 * v1 i - v0 i + lapf (m+3) r2 v1 i) :
    energy (m+3) r2 v2 v1 = energy (m+3) r2 v1 v0 := by
  have hrho : ∀ i, i < m+3 → reflRight (m+3) i < m+3 := by
    intro i hi; simp only [reflRight]; split <;> omega
  have hlam : ∀ i, i < m+3 → reflLeft i < m+3 := by
    intro i hi; simp only [reflLeft]; split <;> omega
  have hlap : ∀ i, i < m+3 → lapf (m+3) r2 v2 i =
      2 * lapf (m+3) r2 v1 i - lapf (m+3) r2 v0 i
        + lapf (m+3) r2 (fun j => lapf (m+3) r2 v1 j) i := by
    intro i hi
    simp only [lapf]
    rw [h _ (hrho i hi), h _ hi, h _ (hlam i hi)]
    simp only [lapf]
    ring
  have hb1 : (∑ i ∈ Finset.range (m+3), wgt (m+3) i * lapf (m+3) r2 v0 i * v1 i)
      = ∑ i ∈ Finset.range (m+3), wgt (m+3) i * lapf (m+3) r2 v1 i * v0 i :=
    Bform_symm m r2 v0 v1
  have hb2 : (∑ i ∈ Finset.range (m+3),
        wgt (m+3) i * lapf (m+3) r2 (fun j => lapf (m+3) r2 v1 j) i * v1 i)
      = ∑ i ∈ Finset.range (m+3),
          wgt (m+3) i * lapf (m+3) r2 v1 i * lapf (m+3) r2 v1 i := by
    have hs := Bform_symm m r2 (fun j => lapf (m+3) r2 v1 j) v1
    simpa [Bform] using hs
  have hsum1 : (∑ i ∈ Finset.range (m+3), wgt (m+3) i * (v2 i - v1 i)^2)
      = (∑ i ∈ Finset.range (m+3), wgt (m+3) i * (v1 i - v0 i)^2)
        + 2 * (∑ i ∈ Finset.range (m+3), wgt (m+3) i * lapf (m+3) r2 v1 i * v1 i)
        - 2 * (∑ i ∈ Finset.range (m+3), wgt (m+3) i * lapf (m+3) r2 v1 i * v0 i)
        + (∑ i ∈ Finset.range (m+3),
            wgt (m+3) i * lapf (m+3) r2 v1 i * lapf (m+3) r2 v1 i) := by
    have hterm : ∀ i ∈ Finset.range (m+3),
        wgt (m+3) i * (v2 i - v1 i)^2 =
          wgt (m+3) i * (v1 i - v0 i)^2
            + 2 * (wgt (m+3) i * lapf (m+3) r2 v1 i * v1 i)
            - 2 * (wgt (m+3) i * lapf (m+3) r2 v1 i * v0 i)
            + wgt (m+3) i * lapf (m+3) r2 v1 i * lapf (m+3) r2 v1 i := by
      intro i hi
      rw [Finset.mem_range] at hi
      rw [h i hi]
      ring
    rw [Finset.sum_congr rfl hterm, Finset.sum_add_distrib, Finset.sum_sub_distrib,
      Finset.sum_add_distrib, ← Finset.mul_sum, ← Finset.mul_sum]
  have hsum2 : (∑ i ∈ Finset.range (m+3), wgt (m+3) i * lapf (m+3) r2 v2 i * v1 i)
      = 2 * (∑ i ∈ Finset.range (m+3), wgt (m+3) i * lapf (m+3) r2 v1 i * v1 i)
        - (∑ i ∈ Finset.range (m+3), wgt (m+3) i * lapf (m+3) r2 v1 i * v0 i)
        + (∑ i ∈ Finset.range (m+3),
            wgt (m+3) i * lapf (m+3) r2 v1 i * lapf (m+3) r2 v1 i) := by
    have hterm : ∀ i ∈ Finset.range (m+3),
        wgt (m+3) i * lapf (m+3) r2 v2 i * v1 i =
          2 * (wgt (m+3) i * lapf (m+3) r2 v1 i * v1 i)
            - (wgt (m+3) i * lapf (m+3) r2 v0 i * v1 i)
            + (wgt (m+3) i * lapf (m+3) r2 (fun j => lapf (m+3) r2 v1 j) i * v1 i) := by
      intro i hi
      rw [Finset.mem_range] at hi
      rw [hlap i hi]
      ring
    rw [Finset.sum_congr rfl hterm, Finset.sum_add_distrib, Finset.sum_sub_distrib,
      ← Finset.mul_sum, hb1, hb2]
  unfold energy Bform
  rw [hsum1, hsum2]
  ring

/-- C8: for a valid parameter set with `decay = 0` under the reflective
boundary policy, the total discrete energy of two consecutive layers (the
standard leapfrog energy with trapezoidal boundary weights) is exactly
conserved: it is unchanged by every time step, in exact arithmetic. -/
theorem C8_energy_conserved (p : c_SimParams) (hv : validParams p)
    (hd : p.decay = 0) (t : ℕ) :
    energy p.grid_size.toNat (courant2 p)
        (fun i => entry (statePair .reflective p (t+1)).2 i)
        (fun i => entry (statePair .reflective p (t+1)).1 i)
      = energy p.grid_size.toNat (courant2 p)
          (fun i => entry (statePair .reflective p t).2 i)
          (fun i => entry (statePair .reflective p t).1 i) := by
  have hn : 3 ≤ p.grid_size.toNat := toNat_grid_ge p hv
  obtain ⟨m, hm⟩ : ∃ m, p.grid_size.toNat = m + 3 := ⟨p.grid_size.toNat - 3, by omega⟩
  have hrot : (statePair .reflective p (t+1)).1 = (statePair .reflective p t).2 := rfl
  rw [hm, hrot]
  apply energy_step
  intro i hi
  show entry (statePair .reflective p (t+1)).2 i
      = 2 * entry (statePair .reflective p t).2 i
        - entry (statePair .reflective p t).1 i
        + lapf (m+3) (courant2 p) (fun j => entry (statePair .reflective p t).2 j) i
  rw [show (statePair .reflective p (t+1)).2 =
      stepField .reflective p.grid_size.toNat (courant2 p) p.decay
        (statePair .reflective p t).1 (statePair .reflective p t).2 from rfl]
  rw [entry_stepField _ _ _ _ _ _ i (by omega)]
  simp only [nextVal]
  rw [hd, hm]
  ring

/-- C8 witness: one conserved step at a valid 5-point reflective
configuration with `decay = 0`. -/
theorem C8_energy_conserved_witness :
    energy (c_SimParams.mk 2 5 2 (1/2) 1 1 0).grid_size.toNat
        (courant2 (c_SimParams.mk 2 5 2 (1/2) 1 1 0))
        (fun i => entry (statePair .reflective (c_SimParams.mk 2 5 2 (1/2) 1 1 0) 1).2 i)
        (fun i => entry (statePair .reflective (c_SimParams.mk 2 5 2 (1/2) 1 1 0) 1).1 i)
      = energy (c_SimParams.mk 2 5 2 (1/2) 1 1 0).grid_size.toNat
          (courant2 (c_SimParams.mk 2 5 2 (1/2) 1 1 0))
          (fun i => entry (statePair .reflective (c_SimParams.mk 2 5 2 (1/2) 1 1 0) 0).2 i)
          (fun i => entry (statePair .reflective (c_SimParams.mk 2 5 2 (1/2) 1 1 0) 0).1 i) :=
  C8_energy_conserved (c_SimParams.mk 2 5 2 (1/2) 1 1 0)
    (by unfold validParams; norm_num) rfl 0

end Tsunami

